import Mathlib

/-!
A shallow embedding of the reverse-mode automatic-differentiation pass
`SimpleAD` (class `SimpleADMutator`, file `src/relax/transform/autodiff/simple_ad.cc`
of the relax fork) together with theorems about the claims of its specification.

Modelling conventions:
* IR expression nodes carry an explicit node identity `nid : Nat`; two nodes are
  "the same object" (C++ pointer identity) exactly when their `nid`s are equal.
  The pass's tables (`adjoint_var_map`, `adjoint_expr_map`, `adjoint_binding_`,
  `zeros_tracker_`) are keyed by node identity in the C++ (TVM `Map` and
  `std::set` on `ObjectRef` compare pointers), so here they are association
  lists keyed by `nid`.
* New nodes created by the pass draw their `nid` from a fresh counter that is
  threaded through every operation, mirroring fresh object allocation.
* Fatal errors (`LOG(FATAL)` / `ICHECK` failures) become `Except` errors, one
  distinct error code per failure site, grouped by the component that raises
  them.
* The block builder and the `ExprMutator` forward clone are external
  collaborators; they are modelled as structure-preserving re-emission with the
  parameter remap applied, and `Normalize` as the identity on the assembled
  body.  The in-place metadata stamping `e->checked_type_ = ...; e->shape_ = ...`
  of `BindAndEmit` does not change node identity and is recorded in a `stamped`
  log (no later step of the pass reads the stamped metadata back).
* The primitive gradient registry is external; it is a parameter
  (`GradReg`) returning one partial-adjoint expression per call argument and
  consuming fresh node identities.
-/

namespace RelaxAD

/-- Structural types: `DynTensorType` (ndim, dtype), `TupleType`, and the
non-tensor leaves that the pass never differentiates. -/
inductive Ty where
  | dynTensor (ndim : Int) (dtype : Nat) : Ty
  | tupleTy (fields : List Ty) : Ty
  | shapeTy : Ty
  | objectTy : Ty

/-- IR expressions.  `var` covers both `Var` (`df = false`) and `DataflowVar`
(`df = true`); a variable carries its `vid` (shared between a parameter and its
clone), display name, optional shape annotation, checked type and span. -/
inductive Expr where
  | var (nid vid : Nat) (name : String) (shape : Option Expr) (ty : Ty) (df : Bool)
      (span : Nat) : Expr
  | tuple (nid : Nat) (fields : List Expr) : Expr
  | tupleGetItem (nid : Nat) (tup : Expr) (idx : Nat) : Expr
  | call (nid : Nat) (op : String) (args : List Expr) (dtypeAttr : Option Nat) : Expr
  | shapeExpr (nid : Nat) (dims : List Nat) : Expr
  | runtimeDepShape (nid : Nat) : Expr

/-- Node identity (the C++ object pointer). -/
def Expr.nid : Expr → Nat
  | .var n _ _ _ _ _ _ => n
  | .tuple n _ => n
  | .tupleGetItem n _ _ => n
  | .call n _ _ _ => n
  | .shapeExpr n _ => n
  | .runtimeDepShape n => n

def Expr.isVarE : Expr → Bool
  | .var _ _ _ _ _ _ _ => true
  | _ => false

/-- `v->IsInstance<DataflowVarNode>()`. -/
def Expr.isDF : Expr → Bool
  | .var _ _ _ _ _ df _ => df
  | _ => false

def Expr.vidOf : Expr → Nat
  | .var _ v _ _ _ _ _ => v
  | _ => 0

def Expr.nameOf : Expr → String
  | .var _ _ s _ _ _ _ => s
  | _ => ""

/-- The shape annotation of a variable (`shape_`). -/
def Expr.shapeAnn : Expr → Option Expr
  | .var _ _ _ sh _ _ _ => sh
  | _ => none

def Expr.tyAnn : Expr → Option Ty
  | .var _ _ _ _ t _ _ => some t
  | _ => none

def Expr.tyD : Expr → Ty
  | .var _ _ _ _ t _ _ => t
  | _ => .objectTy

def Expr.spanOf : Expr → Nat
  | .var _ _ _ _ _ _ sp => sp
  | _ => 0

/-- Association list keyed by node identity; models TVM `Map` keyed by
`ObjectRef` pointer (insertion shadows). -/
abbrev VMap := List (Nat × Expr)

def lookupM : VMap → Nat → Option Expr
  | [], _ => none
  | (k, v) :: rest, k' => if k = k' then some v else lookupM rest k'

/-- Fatal errors raised inside `UpdateExprMap`, `DoAdd`, `DoAddInTuple` and
`BuildEmptyNestedTupleExpr` (each constructor is one `ICHECK`/`LOG(FATAL)`
site). -/
inductive UErr where
  | baseIncNotTuple        -- base and increment should be both tuple
  | incFieldsOOB           -- increment tuple has fewer fields than the base
  | tgiBaseNotVar          -- Tuple of TupleGetItem must be binded to a Var
  | tgiShapeNested         -- no nested TupleGetItem
  | tgiShapeNotTuple       -- type of tuple of TupleGetItem must be tuple
  | downcastTupleType      -- Downcast<TupleType> failed
  | typeFieldsOOB          -- type->fields[i] out of bounds
  | downcastTensorType     -- Downcast<DynTensorType> failed
  | unsupportedEmptyExpr   -- unsupported empty expr
  | adjointNotTuple        -- adjoint of var is not tuple
  | doAddSizeMismatch      -- size of tuple not match
  | doAddTypeMismatch      -- type not match: src1 and src2 should be both tuple
  | notALeafNode           -- not a leaf node
deriving DecidableEq

/-- Fatal errors of the pass; `updateErr` wraps the accumulation-layer errors. -/
inductive ADErr where
  | updateErr (u : UErr)
  | unsupportedBindingValue  -- AD does not support this type of binding value
  | missingGradient          -- no FPrimalGradient entry for the called op
  | gradArityMismatch        -- partials number != inputs number
  | callArgNotVar            -- call argument is not a Var
  | initGradNotTensor        -- Downcast<DynTensorType> in InitGrad failed
  | bodyNotSeqExpr           -- function body is not a SeqExpr
  | notSingleDataflowBlock   -- only support a single dataflow block
  | bodyNotVar               -- the body of the function is not a relax.Var
  | targetIsDataflow         -- not an output node
  | targetNotTensor          -- target must be a DynTensorType
  | targetShapeUnknown       -- error when getting target shape
  | targetNotScalar          -- target must be a scalar
  | paramDowncastTensorType  -- Downcast<DynTensorType> on an input's type failed
  | internalLookup           -- table lookup that the C++ performs unchecked
  | functionNotFound         -- relax function not found
  | gradInputNotParam        -- requires-gradient input is not a parameter
deriving DecidableEq

/-- A binding emitted into the region under construction by the block builder:
`Emit` (dataflow binding), `EmitOutput` (output binding), or a re-emitted
non-variable forward binding. -/
inductive RBinding where
  | emit (v e : Expr)
  | emitOutput (v e : Expr)
  | matchShapeFwd (d : Nat)

/-- A binding of the input program: a `VarBinding` or another binding kind
(e.g. `MatchShape`), which the reverse walk skips. -/
inductive Binding where
  | varBinding (v : Expr) (value : Expr)
  | matchShape (d : Nat)

inductive Block where
  | dataflow (bindings : List Binding)
  | plain (bindings : List Binding)

structure SeqE where
  blocks : List Block
  body : Expr

structure RFunction where
  params : List Expr
  body : Option SeqE    -- `none` models a body that is not a `SeqExpr`
  retTy : Ty

/-- The mutable state of `SimpleADMutator`:
`adjoint_var_map`, `adjoint_expr_map`, `adjoint_binding_`, `zeros_tracker_`,
the block builder's emitted region, the log of stamped nodes, and the fresh
node-identity counter. -/
structure ADState where
  adjointVarMap : VMap := []
  adjointExprMap : VMap := []
  adjointBinding : VMap := []
  zerosTracker : List Nat := []
  stamped : List Nat := []
  emitted : List RBinding := []
  fresh : Nat := 0

/- `DoAdd` / its recursion over tuple fields.  Reads `zeros_tracker_` and
`adjoint_binding_` (never writes them); allocates nodes from `fresh`. -/
mutual
def doAdd (zeros : List Nat) (intern : VMap) (src1 src2 : Expr) (fresh : Nat) :
    Except UErr (Expr × Nat) :=
  if src1.nid ∈ zeros then .ok (src2, fresh)
  else if src2.nid ∈ zeros then .ok (src1, fresh)
  else
    match src1, src2 with
    | .tuple _ fs1, .tuple _ fs2 =>
      if fs1.length = fs2.length then
        match doAddList zeros intern fs1 fs2 fresh with
        | .error e => .error e
        | .ok (fields, fresh1) => .ok (.tuple fresh1 fields, fresh1 + 1)
      else .error .doAddSizeMismatch
    | .tuple _ _, _ => .error .doAddTypeMismatch
    | s1, s2 =>
      -- use the variable to replace expr to reduce the size of AST
      match lookupM intern s2.nid with
      | some ivar => .ok (.call fresh "relax.add" [s1, ivar] none, fresh + 1)
      | none => .ok (.call fresh "relax.add" [s1, s2] none, fresh + 1)

def doAddList (zeros : List Nat) (intern : VMap) (l1 l2 : List Expr) (fresh : Nat) :
    Except UErr (List Expr × Nat) :=
  match l1, l2 with
  | [], _ => .ok ([], fresh)
  | _ :: _, [] => .error .incFieldsOOB
  | a :: r1, b :: r2 =>
    match doAdd zeros intern a b fresh with
    | .error e => .error e
    | .ok (x, fresh1) =>
      match doAddList zeros intern r1 r2 fresh1 with
      | .error e => .error e
      | .ok (xs, fresh2) => .ok (x :: xs, fresh2)
end

/-- `DoAddInTuple`: add `increment` into the `idx`-th field, leave the others
unchanged (an out-of-range index leaves every field unchanged, as the C++
loop does). -/
def doAddInTuple (zeros : List Nat) (intern : VMap) :
    List Expr → Nat → Expr → Nat → Except UErr (List Expr × Nat)
  | [], _, _, fresh => .ok ([], fresh)
  | f :: rest, idx, inc, fresh =>
    if idx = 0 then
      match doAdd zeros intern f inc fresh with
      | .error e => .error e
      | .ok (x, fresh1) => .ok (x :: rest, fresh1)
    else
      match doAddInTuple zeros intern rest (idx - 1) inc fresh with
      | .error e => .error e
      | .ok (xs, fresh1) => .ok (f :: xs, fresh1)

/- `BuildEmptyNestedTupleExpr` over the field lists of a shape tuple and a
tuple type: a `zeros(shape, dtype)` call for every tensor leaf (each one
registered in `zeros_tracker_`), recursion for tuple fields. -/
mutual
def buildEmptyNestedTupleExpr (zeros : List Nat) (fresh : Nat) :
    List Expr → List Ty → Except UErr (List Expr × List Nat × Nat)
  | [], _ => .ok ([], zeros, fresh)
  | _ :: _, [] => .error .typeFieldsOOB
  | sf :: srest, tf :: trest =>
    match buildEmptyField zeros fresh sf tf with
    | .error e => .error e
    | .ok (x, zeros1, fresh1) =>
      match buildEmptyNestedTupleExpr zeros1 fresh1 srest trest with
      | .error e => .error e
      | .ok (xs, zeros2, fresh2) => .ok (x :: xs, zeros2, fresh2)

def buildEmptyField (zeros : List Nat) (fresh : Nat) (sf : Expr) (tf : Ty) :
    Except UErr (Expr × List Nat × Nat) :=
  match sf with
  | .tuple _ innerShapes =>
    match tf with
    | .tupleTy innerTys =>
      match buildEmptyNestedTupleExpr zeros fresh innerShapes innerTys with
      | .error e => .error e
      | .ok (fields, zeros1, fresh1) => .ok (.tuple fresh1 fields, zeros1, fresh1 + 1)
    | _ => .error .downcastTupleType
  | .shapeExpr snid dims =>
    match tf with
    | .dynTensor _ dt =>
      let z := Expr.call fresh "relax.zeros" [.shapeExpr snid dims] (some dt)
      .ok (z, fresh :: zeros, fresh + 1)
    | _ => .error .downcastTensorType
  | _ => .error .unsupportedEmptyExpr
end

/- `UpdateExprMap(base, increment)`: reads `adjoint_binding_`, reads/writes
`adjoint_expr_map`, `zeros_tracker_` (via `BuildEmptyNestedTupleExpr`) and the
fresh counter. -/
mutual
def updateExprMap (intern : VMap) (aem : VMap) (zeros : List Nat) (fresh : Nat)
    (base increment : Expr) : Except UErr (VMap × List Nat × Nat) :=
  match base with
  | .var vnid _ _ _ _ _ _ =>
    match lookupM aem vnid with
    | none =>
      match lookupM intern increment.nid with
      | some ivar => .ok ((vnid, ivar) :: aem, zeros, fresh)
      | none => .ok ((vnid, increment) :: aem, zeros, fresh)
    | some cur =>
      match doAdd zeros intern cur increment fresh with
      | .error e => .error e
      | .ok (updated, fresh1) => .ok ((vnid, updated) :: aem, zeros, fresh1)
  | .tuple _ bfields =>
    match increment with
    | .tuple _ ifields => updateExprMapList intern aem zeros fresh bfields ifields
    | _ => .error .baseIncNotTuple
  | .tupleGetItem _ tup idx =>
    match tup with
    | .var vnid _ _ vshape vty _ _ =>
      match vshape with
      | some (.tupleGetItem _ _ _) => .error .tgiShapeNested
      | some (.tuple _ shapeFields) =>
        let step1 : Except UErr (VMap × List Nat × Nat) :=
          match lookupM aem vnid with
          | some _ => .ok (aem, zeros, fresh)
          | none =>
            match vty with
            | .tupleTy tyFields =>
              match buildEmptyNestedTupleExpr zeros fresh shapeFields tyFields with
              | .error e => .error e
              | .ok (fields, zeros1, fresh1) =>
                .ok ((vnid, Expr.tuple fresh1 fields) :: aem, zeros1, fresh1 + 1)
            | _ => .error .downcastTupleType
        match step1 with
        | .error e => .error e
        | .ok (aem1, zeros1, fresh1) =>
          match lookupM aem1 vnid with
          | some (.tuple _ ofields) =>
            match doAddInTuple zeros1 intern ofields idx increment fresh1 with
            | .error e => .error e
            | .ok (newFields, fresh2) =>
              .ok ((vnid, Expr.tuple fresh2 newFields) :: aem1, zeros1, fresh2 + 1)
          | _ => .error .adjointNotTuple
      | _ => .error .tgiShapeNotTuple
    | _ => .error .tgiBaseNotVar
  | _ => .error .notALeafNode

def updateExprMapList (intern : VMap) (aem : VMap) (zeros : List Nat) (fresh : Nat)
    (bases increments : List Expr) : Except UErr (VMap × List Nat × Nat) :=
  match bases, increments with
  | [], _ => .ok (aem, zeros, fresh)
  | _ :: _, [] => .error .incFieldsOOB
  | b :: brest, i :: irest =>
    match updateExprMap intern aem zeros fresh b i with
    | .error e => .error e
    | .ok (aem1, zeros1, fresh1) => updateExprMapList intern aem1 zeros1 fresh1 brest irest
end

/-- The primitive gradient registry (external collaborator): given the op name,
the forward call, the adjoint variable of the call's result and the fresh
counter, returns the list of partial-adjoint expressions (one per argument)
together with the advanced counter, or `none` when the op has no
`FPrimalGradient` entry. -/
def GradReg := String → Expr → Expr → Nat → Option (List Expr × Nat)

/-- `CreateAdjointVar(v, is_dataflow_var)`: create (once) the adjoint variable
`<name>_adjoint` with `v`'s shape and checked type; a `DataflowVar` when
`is_dataflow_var`, a `Var` otherwise. -/
def createAdjointVar (st : ADState) (v : Expr) (isDataflowVar : Bool) : ADState :=
  if (lookupM st.adjointVarMap v.nid).isSome then st
  else
    match v with
    | .var _ _ name shape ty _ _ =>
      let adj := Expr.var st.fresh st.fresh (name ++ "_adjoint") shape ty isDataflowVar 0
      { st with fresh := st.fresh + 1, adjointVarMap := (v.nid, adj) :: st.adjointVarMap }
    | _ => st

/-- Emission of a binding `v := e`: a dataflow binding for a `DataflowVar`, an
output binding for a `Var`. -/
def mkEmit (v e : Expr) : RBinding :=
  if v.isDF then .emit v e else .emitOutput v e

/-- `BindAndEmit(v, e)`.  When `adjoint_binding_` already maps `e` to a
variable, `e` is rewritten to that variable and the binding is still emitted
(the early return in the C++ is commented out); otherwise `adjoint_binding_[e]
:= v` is recorded, `e` is stamped with `v`'s checked type and shape, and the
binding is emitted. -/
def bindAndEmit (st : ADState) (v e : Expr) : ADState :=
  match lookupM st.adjointBinding e.nid with
  | some u => { st with emitted := st.emitted ++ [mkEmit v u] }
  | none =>
    { st with adjointBinding := (e.nid, v) :: st.adjointBinding,
              stamped := e.nid :: st.stamped,
              emitted := st.emitted ++ [mkEmit v e] }

/-- `var->shape()`: the annotation when present, a fresh `RuntimeDepShape`
node otherwise. -/
def shapeArgOf (st : ADState) (v : Expr) : Expr × ADState :=
  match v.shapeAnn with
  | some s => (s, st)
  | none => (.runtimeDepShape st.fresh, { st with fresh := st.fresh + 1 })

/-- `InitGrad(adjoint_var, var)`: seed `adjoint_expr_map[var]` with
`ones(var.shape, var.dtype)`.  The seed is not registered in
`zeros_tracker_`. -/
def initGrad (st : ADState) (v : Expr) : Except ADErr ADState :=
  match v.tyD with
  | .dynTensor _ dt =>
    let (shp, st1) := shapeArgOf st v
    let init := Expr.call st1.fresh "relax.ones" [shp] (some dt)
    .ok { st1 with fresh := st1.fresh + 1,
                   adjointExprMap := (v.nid, init) :: st1.adjointExprMap }
  | _ => .error .initGradNotTensor

/-- Run `UpdateExprMap` on the state's tables. -/
def applyUpdate (st : ADState) (base increment : Expr) : Except ADErr ADState :=
  match updateExprMap st.adjointBinding st.adjointExprMap st.zerosTracker st.fresh
      base increment with
  | .error u => .error (.updateErr u)
  | .ok (aem, zeros, fresh) =>
    .ok { st with adjointExprMap := aem, zerosTracker := zeros, fresh := fresh }

/-- The per-argument loop of the operator-call case: each argument must be a
variable reference; its accumulated adjoint receives the matching partial. -/
def backpropArgs (st : ADState) : List Expr → List Expr → Except ADErr ADState
  | [], _ => .ok st
  | _ :: _, [] => .ok st
  | arg :: ra, p :: rp =>
    match arg with
    | .var _ _ _ _ _ _ _ =>
      match applyUpdate st arg p with
      | .error e => .error e
      | .ok st1 => backpropArgs st1 ra rp
    | _ => .error .callArgNotVar

/-- Back-propagation dispatch on the form of the binding's right-hand side
(`ReverseVisit`, cases 1-4 and the fatal default). -/
def backprop (reg : GradReg) (st : ADState) (adjVar adjExpr value : Expr) :
    Except ADErr ADState :=
  match value with
  | .tuple n fields => applyUpdate st (.tuple n fields) adjExpr
  | .tupleGetItem n t i => applyUpdate st (.tupleGetItem n t i) adjExpr
  | .var n v s sh ty df sp => applyUpdate st (.var n v s sh ty df sp) adjExpr
  | .call n op args dattr =>
    match reg op (.call n op args dattr) adjVar st.fresh with
    | none => .error .missingGradient
    | some (grads, fresh1) =>
      let st1 := { st with fresh := fresh1 }
      if grads.length = args.length then backpropArgs st1 args grads
      else .error .gradArityMismatch
  | _ => .error .unsupportedBindingValue

/-- `ReverseVisit` for a variable binding `v := value`. -/
def reverseVisit (reg : GradReg) (target : Expr) (st : ADState) (v value : Expr) :
    Except ADErr ADState :=
  let st1 := createAdjointVar st v true
  match lookupM st1.adjointVarMap v.nid with
  | none => .error .internalLookup
  | some adjVar =>
    match lookupM st1.adjointExprMap v.nid with
    | some ae => backprop reg (bindAndEmit st1 adjVar ae) adjVar ae value
    | none =>
      if v.nid = target.nid then
        match initGrad st1 v with
        | .error e => .error e
        | .ok st2 =>
          match lookupM st2.adjointExprMap v.nid with
          | none => .error .internalLookup
          | some ae => backprop reg (bindAndEmit st2 adjVar ae) adjVar ae value
      else .ok st1   -- must be ignored output: contributes nothing, skip

/-- One iteration of the reverse loop: bindings that are not variable bindings
are skipped. -/
def reverseStep (reg : GradReg) (target : Expr) (st : ADState) (b : Binding) :
    Except ADErr ADState :=
  match b with
  | .varBinding v value => reverseVisit reg target st v value
  | .matchShape _ => .ok st

/-- The reverse-mode loop over the (already reversed) binding list. -/
def reverseWalk (reg : GradReg) (target : Expr) (st : ADState) :
    List Binding → Except ADErr ADState
  | [] => .ok st
  | b :: rest =>
    match reverseStep reg target st b with
    | .error e => .error e
    | .ok st1 => reverseWalk reg target st1 rest

/-- `CheckTarget`: the target must be an output (non-dataflow) variable of
`DynTensorType` whose shape is a `ShapeExpr` with no dimensions. -/
def checkTarget (e : Expr) : Except ADErr Unit :=
  if e.isDF then .error .targetIsDataflow
  else
    match e.tyD with
    | .dynTensor _ _ =>
      match e.shapeAnn with
      | some (.shapeExpr _ dims) =>
        if dims.length = 0 then .ok () else .error .targetNotScalar
      | _ => .error .targetShapeUnknown
    | _ => .error .targetNotTensor

/-- Parameter cloning of the forward cloner: each parameter is rebuilt as a
fresh variable with the same vid, name, shape, checked type and span
(`Var(param->vid, param->shape(), param->checked_type_, param->span)`), and the
remap `old vid → new param` is recorded. -/
def cloneParams : List Expr → Nat → (List Expr × List (Nat × Expr) × Nat)
  | [], fresh => ([], [], fresh)
  | p :: rest, fresh =>
    match p with
    | .var _ vid name shape ty df span =>
      let np := Expr.var fresh vid name shape ty df span
      let (nps, remap, fresh1) := cloneParams rest (fresh + 1)
      (np :: nps, (vid, np) :: remap, fresh1)
    | e =>
      let (nps, remap, fresh1) := cloneParams rest fresh
      (e :: nps, remap, fresh1)

/- Variable substitution of the `ExprMutator` (applies `var_remap_` by vid).
Node identities of unchanged nodes are preserved; a rebuilt node keeps its
`nid` here because no table of the pass ever keys a forward value node. -/
mutual
def substVars (remap : List (Nat × Expr)) : Expr → Expr
  | .var nid vid name shape ty df span =>
    match lookupM remap vid with
    | some np => np
    | none => .var nid vid name shape ty df span
  | .tuple nid fields => .tuple nid (substVarsList remap fields)
  | .tupleGetItem nid t i => .tupleGetItem nid (substVars remap t) i
  | .call nid op args dattr => .call nid op (substVarsList remap args) dattr
  | .shapeExpr nid dims => .shapeExpr nid dims
  | .runtimeDepShape nid => .runtimeDepShape nid

def substVarsList (remap : List (Nat × Expr)) : List Expr → List Expr
  | [] => []
  | e :: rest => substVars remap e :: substVarsList remap rest
end

def substBinding (remap : List (Nat × Expr)) : Binding → Binding
  | .varBinding v value => .varBinding v (substVars remap value)
  | .matchShape d => .matchShape d

def substBlock (remap : List (Nat × Expr)) : Block → Block
  | .dataflow bs => .dataflow (bs.map (substBinding remap))
  | .plain bs => .plain (bs.map (substBinding remap))

/-- Re-emission of the forward region into the builder (`VisitBinding` on each
binding of the single dataflow block). -/
def forwardEmit (bs : List Binding) : List RBinding :=
  bs.map fun b =>
    match b with
    | .varBinding v value => mkEmit v value
    | .matchShape d => .matchShapeFwd d

/-- Whether an original parameter is in the requires-gradient set: the set is
empty (meaning all parameters) or contains the parameter (object identity). -/
def selectedParam (G : List Expr) (origParam : Expr) : Bool :=
  G.isEmpty || G.any (fun g => g.nid == origParam.nid)

/-- Adjoint-variable creation for the inputs: a `Var` (output kind) for
requires-gradient parameters, a `DataflowVar` otherwise. -/
def setupParamAdjoints (st : ADState) (G : List Expr) :
    List (Expr × Expr) → ADState
  | [] => st
  | (np, op) :: rest =>
    setupParamAdjoints (createAdjointVar st np (!(selectedParam G op))) G rest

/-- Input-adjoint finalization: for every requires-gradient input, emit its
accumulated adjoint, or a default `zeros(shape, dtype)` when it never received
one; collect the adjoint variables in parameter order. -/
def emitInputAdjoints (st : ADState) (G : List Expr) :
    List (Expr × Expr) → Except ADErr (List Expr × ADState)
  | [] => .ok ([], st)
  | (np, op) :: rest =>
    if selectedParam G op then
      match lookupM st.adjointVarMap np.nid with
      | none => .error .internalLookup
      | some adjVar =>
        match lookupM st.adjointExprMap np.nid with
        | some ae =>
          match emitInputAdjoints (bindAndEmit st adjVar ae) G rest with
          | .error e => .error e
          | .ok (out, st2) => .ok (adjVar :: out, st2)
        | none =>
          match np.tyD with
          | .dynTensor _ dt =>
            let (shp, st1) := shapeArgOf st np
            let dflt := Expr.call st1.fresh "relax.zeros" [shp] (some dt)
            let st2 := { st1 with fresh := st1.fresh + 1 }
            match emitInputAdjoints (bindAndEmit st2 adjVar dflt) G rest with
            | .error e => .error e
            | .ok (out, st3) => .ok (adjVar :: out, st3)
          | _ => .error .paramDowncastTensorType
    else emitInputAdjoints st G rest

/- Largest node identity occurring in an expression (shape annotations
included); used to start the fresh counter above every identity of the input
function, mirroring fresh object allocation. -/
mutual
def exprMaxNid : Expr → Nat
  | .var n _ _ shape _ _ _ =>
    match shape with
    | some s => max n (exprMaxNid s)
    | none => n
  | .tuple n fields => max n (exprMaxNidList fields)
  | .tupleGetItem n t _ => max n (exprMaxNid t)
  | .call n _ args _ => max n (exprMaxNidList args)
  | .shapeExpr n _ => n
  | .runtimeDepShape n => n

def exprMaxNidList : List Expr → Nat
  | [] => 0
  | e :: rest => max (exprMaxNid e) (exprMaxNidList rest)
end

def bindingMaxNid : Binding → Nat
  | .varBinding v value => max (exprMaxNid v) (exprMaxNid value)
  | .matchShape _ => 0

def bindingsMaxNid : List Binding → Nat
  | [] => 0
  | b :: rest => max (bindingMaxNid b) (bindingsMaxNid rest)

def blockMaxNid : Block → Nat
  | .dataflow bs => bindingsMaxNid bs
  | .plain bs => bindingsMaxNid bs

def blocksMaxNid : List Block → Nat
  | [] => 0
  | b :: rest => max (blockMaxNid b) (blocksMaxNid rest)

def funcMaxNid (f : RFunction) : Nat :=
  max (exprMaxNidList f.params)
    (match f.body with
     | some seq => max (blocksMaxNid seq.blocks) (exprMaxNid seq.body)
     | none => 0)

/-- The result of `FuncTransform`: the new function's parameters, its single
dataflow region, the collected input adjoints, the assembled return expression
and type, and the mutator's final state. -/
structure FTResult where
  params : List Expr
  emitted : List RBinding
  outAdjoints : List Expr
  retExpr : Expr
  retTy : Ty
  finalState : ADState

/-- `FuncTransform` with an explicit initial fresh counter: clone the
parameters, re-emit the single dataflow block, create the input adjoint
variables, check the target, run the reverse walk, finalize the input adjoints
and assemble `(original_return, (adjoints...))`. -/
def funcTransformAux (reg : GradReg) (f : RFunction) (G : List Expr)
    (fresh0 : Nat) : Except ADErr FTResult :=
  match f.body with
  | none => .error .bodyNotSeqExpr
  | some seq =>
    let (newParams, remap, fresh1) := cloneParams f.params fresh0
    let body := substVars remap seq.body
    match seq.blocks.map (substBlock remap) with
    | [Block.dataflow bs] =>
      let st0 : ADState := { fresh := fresh1, emitted := forwardEmit bs }
      let st1 := setupParamAdjoints st0 G (newParams.zip f.params)
      if body.isVarE then
        match checkTarget body with
        | .error e => .error e
        | .ok _ =>
          match reverseWalk reg body st1 bs.reverse with
          | .error e => .error e
          | .ok st2 =>
            match emitInputAdjoints st2 G (newParams.zip f.params) with
            | .error e => .error e
            | .ok (outAdj, st3) =>
              let retE := Expr.tuple (st3.fresh + 1) [body, Expr.tuple st3.fresh outAdj]
              let st4 := { st3 with fresh := st3.fresh + 2 }
              .ok { params := newParams, emitted := st4.emitted,
                    outAdjoints := outAdj, retExpr := retE,
                    retTy := .tupleTy [f.retTy, .tupleTy (outAdj.map Expr.tyD)],
                    finalState := st4 }
      else .error .bodyNotVar
    | _ => .error .notSingleDataflowBlock

/-- `FuncTransform`: the fresh counter starts above every node identity of the
input function. -/
def funcTransform (reg : GradReg) (f : RFunction) (G : List Expr) :
    Except ADErr FTResult :=
  funcTransformAux reg f G (funcMaxNid f + 1)

def rbindingToBinding : RBinding → Binding
  | .emit v e => .varBinding v e
  | .emitOutput v e => .varBinding v e
  | .matchShapeFwd d => .matchShape d

/-- The function assembled from a `FuncTransform` result. -/
def resultFunction (res : FTResult) : RFunction :=
  { params := res.params,
    body := some { blocks := [.dataflow (res.emitted.map rbindingToBinding)],
                   body := res.retExpr },
    retTy := res.retTy }

/-- A module: named functions. -/
abbrev ADModule := List (String × RFunction)

def lookupFn : ADModule → String → Option RFunction
  | [], _ => none
  | (n, f) :: rest, n' => if n = n' then some f else lookupFn rest n'

/-- The pass entry `SimpleAD(m, var, require_grads)`: look up the function,
check every requires-gradient input is one of its parameters, transform, and
add the new function under `<name>_adjoint` to (a copy-on-write clone of) the
module. -/
def simpleAD (reg : GradReg) (m : ADModule) (fname : String) (G : List Expr) :
    Except ADErr ADModule :=
  match lookupFn m fname with
  | none => .error .functionNotFound
  | some f =>
    if G.all (fun g => f.params.any (fun p => p.nid == g.nid)) then
      match funcTransform reg f G with
      | .error e => .error e
      | .ok res => .ok (m ++ [(fname ++ "_adjoint", resultFunction res)])
    else .error .gradInputNotParam

/-- Whether `Except` holds a fatal error (the pass aborts, yielding no
result). -/
def isError {α : Type} : Except ADErr α → Bool
  | .error _ => true
  | .ok _ => false

/-- The four right-hand-side forms the reverse walk supports: tuple
construction, tuple projection, variable reference, operator call. -/
def supportedRhs : Expr → Bool
  | .tuple _ _ => true
  | .tupleGetItem _ _ _ => true
  | .var _ _ _ _ _ _ _ => true
  | .call _ _ _ _ => true
  | _ => false

/-- A variable whose structural type is a scalar (zero-dimensional) tensor
with a known `ShapeExpr` shape. -/
def isScalarTensorVar (e : Expr) : Bool :=
  match e.tyD with
  | .dynTensor _ _ =>
    match e.shapeAnn with
    | some (.shapeExpr _ dims) => dims.isEmpty
    | _ => false
  | _ => false

/-- The remap built by the forward cloner for a function. -/
def cloneRemapOf (f : RFunction) : List (Nat × Expr) :=
  (cloneParams f.params (funcMaxNid f + 1)).2.1

/-- The (parameter-remapped) terminator of a function body, as inspected by the
pass after the forward clone. -/
def newBodyOf (f : RFunction) (seq : SeqE) : Expr :=
  substVars (cloneRemapOf f) seq.body

/-- Every key of the intern table is below the fresh counter (holds throughout
a pass invocation: keys are identities of already-created nodes). -/
def internBelow (st : ADState) : Prop :=
  ∀ kv ∈ st.adjointBinding, kv.1 < st.fresh

/-- Every accumulated adjoint expression's identity is below the fresh counter
(holds throughout a pass invocation). -/
def exprMapBelow (st : ADState) : Prop :=
  ∀ kv ∈ st.adjointExprMap, (kv.2).nid < st.fresh

/-! Concrete material for witnesses and counterexamples: a gradient registry
and three input programs. -/

/-- A concrete gradient registry: every op has a gradient; the partial for each
argument is a fresh call on the adjoint variable and the argument (the
structural shape of real entries such as `collapse_sum_like`). -/
def mkGrads (adjVar : Expr) : List Expr → Nat → (List Expr × Nat)
  | [], fresh => ([], fresh)
  | a :: rest, fresh =>
    let (ps, fresh1) := mkGrads adjVar rest (fresh + 1)
    (Expr.call fresh "relax.collapse_sum_like" [adjVar, a] none :: ps, fresh1)

def testReg : GradReg := fun _op c adjVar fresh =>
  match c with
  | .call _ _ args _ => some (mkGrads adjVar args fresh)
  | _ => none

/-- Scalar `float32` tensor type. -/
def sTy : Ty := .dynTensor 0 0

/-! Program A: `main(x : S, y : S) { lv = x (output); return lv }`. -/

def xParamA : Expr := .var 1 1 "x" (some (.shapeExpr 2 [])) sTy false 0
def yParamA : Expr := .var 3 3 "y" (some (.shapeExpr 4 [])) sTy false 0
def lvVarA : Expr := .var 5 5 "lv" (some (.shapeExpr 6 [])) sTy false 0

def fA : RFunction :=
  { params := [xParamA, yParamA],
    body := some { blocks := [.dataflow [.varBinding lvVarA xParamA]], body := lvVarA },
    retTy := sTy }

def moduleA : ADModule := [("main", fA)]

/-! Program B: `t = (x, y); s = t; lv = s[0]; return lv`.
A valid straight-line program combining an alias of the tuple `t` with a
projection through the alias. -/

def xParamB : Expr := .var 1 1 "x" (some (.shapeExpr 2 [])) sTy false 0
def yParamB : Expr := .var 3 3 "y" (some (.shapeExpr 4 [])) sTy false 0
def tVarB : Expr :=
  .var 5 5 "t" (some (.tuple 6 [.shapeExpr 7 [], .shapeExpr 8 []])) (.tupleTy [sTy, sTy]) true 0
def sVarB : Expr :=
  .var 9 9 "s" (some (.tuple 10 [.shapeExpr 11 [], .shapeExpr 12 []])) (.tupleTy [sTy, sTy]) true 0
def lvVarB : Expr := .var 13 13 "lv" (some (.shapeExpr 14 [])) sTy false 0

def bsB : List Binding :=
  [.varBinding tVarB (.tuple 15 [xParamB, yParamB]),
   .varBinding sVarB tVarB,
   .varBinding lvVarB (.tupleGetItem 16 sVarB 0)]

def fB : RFunction :=
  { params := [xParamB, yParamB],
    body := some { blocks := [.dataflow bsB], body := lvVarB },
    retTy := sTy }

/-- A mutator state for program B (forward region emitted, input adjoints
created) from which the reverse walk can be observed step by step. -/
def stB0 : ADState := { fresh := 19, emitted := forwardEmit bsB }

def stB1 : ADState :=
  setupParamAdjoints stB0 [] ([xParamB, yParamB].zip [xParamB, yParamB])

/-- The last two bindings of program B in reverse order: the walk prefix that
ends right after processing the alias `s = t`. -/
def revPrefixB : List Binding :=
  [.varBinding lvVarB (.tupleGetItem 16 sVarB 0),
   .varBinding sVarB tVarB]

/-! Program C: `main(x : S, w : (S, S)) { lv = x (output); return lv }` with a
tuple-typed input unreachable from the target. -/

def xParamC : Expr := .var 1 1 "x" (some (.shapeExpr 2 [])) sTy false 0
def wParamC : Expr :=
  .var 3 3 "w" (some (.tuple 4 [.shapeExpr 5 [], .shapeExpr 6 []])) (.tupleTy [sTy, sTy]) false 0
def lvVarC : Expr := .var 7 7 "lv" (some (.shapeExpr 8 [])) sTy false 0

def fC : RFunction :=
  { params := [xParamC, wParamC],
    body := some { blocks := [.dataflow [.varBinding lvVarC xParamC]], body := lvVarC },
    retTy := sTy }

/-! Concrete states used to instantiate theorems with hypotheses. -/

def uW2 : Expr := .var 40 40 "u" none sTy true 0
def vW2 : Expr := .var 41 41 "v" none sTy true 0
def eW2 : Expr := .call 50 "relax.ones" [] none
def stW2 : ADState := { adjointBinding := [(50, uW2)], fresh := 60 }

def vW10 : Expr := .var 70 70 "v" none sTy true 0
def aW10 : Expr := .var 71 71 "v_adjoint" none sTy true 0
def eW10 : Expr := .call 72 "relax.ones" [] none
def stW10 : ADState :=
  { adjointVarMap := [(70, aW10)], adjointExprMap := [(70, eW10)], fresh := 80 }
def tgtW : Expr := .var 99 99 "tgt" none sTy false 0

def avW5 : Expr := .var 9 9 "x_adjoint" (some (.shapeExpr 2 [])) sTy false 0
def npW5 : Expr := .var 7 1 "x" (some (.shapeExpr 2 [])) sTy false 0
def stW5 : ADState := { adjointVarMap := [(7, avW5)], fresh := 20 }

def dummyFT : FTResult :=
  { params := [], emitted := [], outAdjoints := [], retExpr := .runtimeDepShape 0,
    retTy := .objectTy, finalState := {} }

/-- The result of the pass on program A with requires-gradient list
`[y, x]` (reversed relative to parameter order). -/
def resA : FTResult :=
  (funcTransform testReg fA [yParamA, xParamA]).toOption.getD dummyFT

/-! ### Theorems -/

/-- C2 (amended): when the intern table already maps `e` to a previously bound
variable `u`, `bind_and_emit(v, e)` rewrites `e` to `u` and still emits the
binding `v := u` into the region (dataflow or output according to `v`'s kind);
the intern table, the stamp log and every other table are left unchanged.  The
aliasing of `v` to `u` is realized by that emitted binding. -/
theorem C2_bindAndEmit_internHit (st : ADState) (v e u : Expr)
    (h : lookupM st.adjointBinding e.nid = some u) :
    bindAndEmit st v e = { st with emitted := st.emitted ++ [mkEmit v u] } := by
  unfold bindAndEmit
  rw [h]

/-- C2 witness: the amended statement at a concrete interned expression. -/
theorem C2_witness :
    bindAndEmit stW2 vW2 eW2 = { stW2 with emitted := stW2.emitted ++ [mkEmit vW2 uW2] } :=
  C2_bindAndEmit_internHit stW2 vW2 eW2 uW2 rfl

/-- C2 counterexample: with `Intern[e] = u` already present, a new binding is
still emitted into the region (the claim asserts none is), growing the region
by one binding. -/
theorem C2_cex :
    lookupM stW2.adjointBinding eW2.nid = some uW2 ∧
    (bindAndEmit stW2 vW2 eW2).emitted.length = stW2.emitted.length + 1 :=
  ⟨rfl, rfl⟩

set_option maxHeartbeats 1600000 in
/-- C3: on the valid program B (`t = (x, y); s = t; lv = s[0]`), after the
reverse walk processes the alias `s = t`, the intern substitution inside
`UpdateExprMap` stores the previously bound variable `s_adjoint` as
`AdjExpr[t]` — a variable reference, not a tuple literal — although `t` is
tuple-typed, violating the claimed invariant; one step later, when the binding
`t = (x, y)` back-propagates, the code trips over the broken invariant (the
increment is not a tuple) and the whole transformation of this valid program
aborts. -/
theorem C3_invariant_broken :
    (reverseWalk testReg lvVarB stB1 revPrefixB).map
        (fun st => (lookupM st.adjointExprMap tVarB.nid).map Expr.isVarE) =
      .ok (some true) ∧
    tVarB.tyD = .tupleTy [sTy, sTy] ∧
    funcTransform testReg fB [] = .error (.updateErr .baseIncNotTuple) :=
  ⟨rfl, rfl, rfl⟩

/-- C6 (amended): `DoAdd(s1, s2)` follows its rules in order: an identity-based
`ZeroSet` hit on `s1` returns `s2` unchanged, then a hit on `s2` returns `s1`
unchanged; if `s1` is a tuple literal then `s2` must also be one (matching
arities enforced, pairwise recursion) — a non-tuple `s2` is a fatal error, not
an `add`; only when `s1` is not a tuple literal is `add(s1, s2')` returned,
where `s2'` is the interned variable of `s2` when one exists and `s2` itself
otherwise, `s1` never being intern-substituted. -/
theorem C6_doAdd_rules (zeros : List Nat) (intern : VMap) (s1 s2 : Expr) (fresh : Nat) :
    (s1.nid ∈ zeros → doAdd zeros intern s1 s2 fresh = .ok (s2, fresh)) ∧
    (s1.nid ∉ zeros → s2.nid ∈ zeros →
      doAdd zeros intern s1 s2 fresh = .ok (s1, fresh)) ∧
    (∀ n1 fs1 n2 fs2, s1.nid ∉ zeros → s2.nid ∉ zeros →
      s1 = .tuple n1 fs1 → s2 = .tuple n2 fs2 →
      (fs1.length ≠ fs2.length →
        doAdd zeros intern s1 s2 fresh = .error .doAddSizeMismatch) ∧
      (fs1.length = fs2.length →
        doAdd zeros intern s1 s2 fresh =
          match doAddList zeros intern fs1 fs2 fresh with
          | .error e => .error e
          | .ok (fields, fresh1) => .ok (.tuple fresh1 fields, fresh1 + 1))) ∧
    (∀ n1 fs1, s1.nid ∉ zeros → s2.nid ∉ zeros →
      s1 = .tuple n1 fs1 → (s2 matches .tuple _ _) = false →
      doAdd zeros intern s1 s2 fresh = .error .doAddTypeMismatch) ∧
    (s1.nid ∉ zeros → s2.nid ∉ zeros →
      (s1 matches .tuple _ _) = false →
      doAdd zeros intern s1 s2 fresh =
        .ok (.call fresh "relax.add" [s1, (lookupM intern s2.nid).getD s2] none, fresh + 1)) := by
  refine ⟨?_, ?_, ?_, ?_, ?_⟩
  · intro h1
    unfold doAdd
    simp [h1]
  · intro h1 h2
    unfold doAdd
    simp [h1, h2]
  · intro n1 fs1 n2 fs2 h1 h2 e1 e2
    subst e1; subst e2
    constructor
    · intro hne
      unfold doAdd
      simp [h1, h2, hne]
    · intro heq
      unfold doAdd
      simp [h1, h2, heq]
  · intro n1 fs1 h1 h2 e1 hnt
    subst e1
    unfold doAdd
    cases s2 <;> simp_all
  · intro h1 h2 hnt
    unfold doAdd
    cases s1 <;> cases hs : lookupM intern s2.nid <;> simp_all

/-- C6 witness: rule 1 (zero hit on `s1`) and rule 4 (intern substitution of
`s2` only) at concrete inputs. -/
theorem C6_witness :
    doAdd [50] [] (.call 50 "relax.zeros" [] (some 0)) eW2 7 = .ok (eW2, 7) ∧
    doAdd [] [(50, uW2)] (.runtimeDepShape 51) eW2 7 =
      .ok (.call 7 "relax.add" [.runtimeDepShape 51, uW2] none, 8) := by
  constructor
  · exact (C6_doAdd_rules [50] [] (.call 50 "relax.zeros" [] (some 0)) eW2 7).1 (by decide)
  · exact (C6_doAdd_rules [] [(50, uW2)] (.runtimeDepShape 51) eW2 7).2.2.2.2
      (by decide) (by decide) rfl

/-- C6 counterexample: with neither side in `ZeroSet` and the sides not both
tuple literals (`s1` a tuple literal, `s2` an operator call), the claim's final
rule demands `add(s1, s2')`; the code instead aborts with a fatal type-mismatch
error. -/
theorem C6_cex :
    doAdd [] [] (.tuple 100 [.runtimeDepShape 101]) (.call 102 "relax.ones" [] none) 7 =
      .error .doAddTypeMismatch ∧
    (Expr.tuple 100 [.runtimeDepShape 101]).nid ∉ ([] : List Nat) ∧
    (Expr.call 102 "relax.ones" [] none).nid ∉ ([] : List Nat) :=
  ⟨rfl, by decide, by decide⟩

/-- C7: a successful pass invocation returns the input module extended with
exactly one new function entry, bound to the name `<name-of-F>_adjoint`; the
input module itself (a value in this embedding, mutated only through a
copy-on-write clone in the C++) is unchanged. -/
theorem C7_module_plus_one (reg : GradReg) (m : ADModule) (fname : String)
    (G : List Expr) (mOut : ADModule) (h : simpleAD reg m fname G = .ok mOut) :
    ∃ fOut, mOut = m ++ [(fname ++ "_adjoint", fOut)] := by
  unfold simpleAD at h
  split at h
  · exact absurd h (by simp)
  · split at h
    · split at h
      · exact absurd h (by simp)
      · exact ⟨_, by injection h with h2; exact h2.symm⟩
    · exact absurd h (by simp)

/-- C7 witness: the pass on the concrete module A succeeds and yields module A
plus one function named `main_adjoint`. -/
theorem C7_witness :
    ∃ fOut, (simpleAD testReg moduleA "main" []).toOption.getD [] =
      moduleA ++ [("main_adjoint", fOut)] :=
  C7_module_plus_one testReg moduleA "main" []
    ((simpleAD testReg moduleA "main" []).toOption.getD []) rfl

/-! ### Error provenance: the `AD does not support this binding form` error -/

theorem applyUpdate_err (st : ADState) (b i : Expr) (e : ADErr)
    (h : applyUpdate st b i = .error e) : ∃ u, e = .updateErr u := by
  unfold applyUpdate at h
  split at h
  · exact ⟨_, by injection h with h1; exact h1.symm⟩
  · exact absurd h (by simp)

theorem backpropArgs_err : ∀ (args ps : List Expr) (st : ADState) (e : ADErr),
    backpropArgs st args ps = .error e → e = .callArgNotVar ∨ ∃ u, e = .updateErr u := by
  intro args
  induction args with
  | nil => intro ps st e h; simp [backpropArgs] at h
  | cons a ra ih =>
    intro ps st e h
    match ps with
    | [] => simp [backpropArgs] at h
    | p :: rp =>
      cases a with
      | var nid vid name shape ty df span =>
        cases hax : applyUpdate st (.var nid vid name shape ty df span) p with
        | error e2 =>
          simp only [backpropArgs, hax] at h
          injection h with h1
          subst h1
          exact Or.inr (applyUpdate_err _ _ _ _ hax)
        | ok st1 =>
          simp only [backpropArgs, hax] at h
          exact ih rp st1 e h
      | tuple n fs =>
        simp only [backpropArgs] at h
        exact Or.inl (by injection h with h1; exact h1.symm)
      | tupleGetItem n t i =>
        simp only [backpropArgs] at h
        exact Or.inl (by injection h with h1; exact h1.symm)
      | call n op cargs dattr =>
        simp only [backpropArgs] at h
        exact Or.inl (by injection h with h1; exact h1.symm)
      | shapeExpr n dims =>
        simp only [backpropArgs] at h
        exact Or.inl (by injection h with h1; exact h1.symm)
      | runtimeDepShape n =>
        simp only [backpropArgs] at h
        exact Or.inl (by injection h with h1; exact h1.symm)

theorem backprop_unsupported (reg : GradReg) (st : ADState) (a ae value : Expr)
    (h : backprop reg st a ae value = .error .unsupportedBindingValue) :
    supportedRhs value = false := by
  cases value with
  | tuple n fields =>
    obtain ⟨u, hu⟩ := applyUpdate_err st _ ae _ h
    exact absurd hu (by simp)
  | tupleGetItem n t i =>
    obtain ⟨u, hu⟩ := applyUpdate_err st _ ae _ h
    exact absurd hu (by simp)
  | var n v s sh ty df sp =>
    obtain ⟨u, hu⟩ := applyUpdate_err st _ ae _ h
    exact absurd hu (by simp)
  | call n op args dattr =>
    simp only [backprop] at h
    split at h
    · simp at h
    · split at h
      · rcases backpropArgs_err args _ _ _ h with h1 | ⟨u, h2⟩ <;> simp_all
      · simp at h
  | shapeExpr n dims => rfl
  | runtimeDepShape n => rfl

theorem initGrad_err (st : ADState) (v : Expr) (e : ADErr)
    (h : initGrad st v = .error e) : e = .initGradNotTensor := by
  unfold initGrad at h
  split at h
  · exact absurd h (by simp)
  · injection h with h1; exact h1.symm

theorem reverseVisit_unsupported (reg : GradReg) (target : Expr) (st : ADState)
    (v value : Expr)
    (h : reverseVisit reg target st v value = .error .unsupportedBindingValue) :
    supportedRhs value = false := by
  unfold reverseVisit at h
  split at h
  · -- v is the target
    cases h1 : lookupM (createAdjointVar st v true).adjointVarMap v.nid with
    | none => simp only [h1] at h; simp at h
    | some adjVar =>
      simp only [h1] at h
      cases h2 : lookupM (createAdjointVar st v true).adjointExprMap v.nid with
      | some ae =>
        simp only [h2] at h
        exact backprop_unsupported reg _ adjVar ae value h
      | none =>
        simp only [h2] at h
        cases h3 : initGrad (createAdjointVar st v true) v with
        | error e =>
          simp only [h3] at h
          injection h with h4
          subst h4
          have h5 := initGrad_err _ _ _ h3
          simp at h5
        | ok st2 =>
          simp only [h3] at h
          cases h4 : lookupM st2.adjointExprMap v.nid with
          | none => simp only [h4] at h; simp at h
          | some ae =>
            simp only [h4] at h
            exact backprop_unsupported reg _ adjVar ae value h
  · -- v is not the target
    cases h1 : lookupM (createAdjointVar st v true).adjointVarMap v.nid with
    | none => simp only [h1] at h; simp at h
    | some adjVar =>
      simp only [h1] at h
      cases h2 : lookupM (createAdjointVar st v true).adjointExprMap v.nid with
      | some ae =>
        simp only [h2] at h
        exact backprop_unsupported reg _ adjVar ae value h
      | none => simp only [h2] at h; simp at h

/-- C10: a forward binding that is not a variable binding is silently skipped
by the reverse walk (state unchanged, no adjoint variable, no propagation, no
error); and the `AD does not support this type of binding value` fatal error is
raised only for a variable binding whose right-hand side is none of tuple
construction, tuple projection, variable reference, or operator call. -/
theorem C10_skip_and_error_form :
    (∀ (reg : GradReg) (target : Expr) (st : ADState) (d : Nat),
      reverseStep reg target st (.matchShape d) = .ok st) ∧
    (∀ (reg : GradReg) (target : Expr) (st : ADState) (b : Binding),
      reverseStep reg target st b = .error .unsupportedBindingValue →
      ∃ v value, b = .varBinding v value ∧ supportedRhs value = false) := by
  constructor
  · intro reg target st d; rfl
  · intro reg target st b h
    cases b with
    | varBinding v value =>
      exact ⟨v, value, rfl, reverseVisit_unsupported reg target st v value h⟩
    | matchShape d => simp [reverseStep] at h

/-- C10 witness: a match-shape binding is skipped with the state untouched, and
the unsupported-form error on a concrete `ShapeExpr` right-hand side indeed
comes from a variable binding outside the four supported forms. -/
theorem C10_witness :
    reverseStep testReg tgtW stW10 (.matchShape 3) = .ok stW10 ∧
    ∃ v value, (Binding.varBinding vW10 (.shapeExpr 75 [])) = .varBinding v value ∧
      supportedRhs value = false :=
  ⟨C10_skip_and_error_form.1 testReg tgtW stW10 3,
   C10_skip_and_error_form.2 testReg tgtW stW10 (.varBinding vW10 (.shapeExpr 75 [])) rfl⟩

/-! ### Frame lemmas: which tables each operation leaves untouched -/

theorem bindAndEmit_avm (st : ADState) (v e : Expr) :
    (bindAndEmit st v e).adjointVarMap = st.adjointVarMap := by
  unfold bindAndEmit
  split <;> rfl

theorem bindAndEmit_aem (st : ADState) (v e : Expr) :
    (bindAndEmit st v e).adjointExprMap = st.adjointExprMap := by
  unfold bindAndEmit
  split <;> rfl

theorem bindAndEmit_fresh (st : ADState) (v e : Expr) :
    (bindAndEmit st v e).fresh = st.fresh := by
  unfold bindAndEmit
  split <;> rfl

theorem bindAndEmit_emitted (st : ADState) (v e : Expr) :
    (bindAndEmit st v e).emitted =
      st.emitted ++ [mkEmit v ((lookupM st.adjointBinding e.nid).getD e)] := by
  unfold bindAndEmit
  cases h : lookupM st.adjointBinding e.nid <;> simp [h]

theorem applyUpdate_avm (st : ADState) (b i : Expr) (st1 : ADState)
    (h : applyUpdate st b i = .ok st1) : st1.adjointVarMap = st.adjointVarMap := by
  unfold applyUpdate at h
  split at h
  · exact absurd h (by simp)
  · injection h with h1
    rw [← h1]

theorem initGrad_avm (st : ADState) (v : Expr) (st1 : ADState)
    (h : initGrad st v = .ok st1) : st1.adjointVarMap = st.adjointVarMap := by
  unfold initGrad shapeArgOf at h
  split at h
  · cases hsh : v.shapeAnn with
    | some s => simp only [hsh] at h; injection h with h1; rw [← h1]
    | none => simp only [hsh] at h; injection h with h1; rw [← h1]
  · exact absurd h (by simp)

theorem backpropArgs_avm : ∀ (args ps : List Expr) (st : ADState) (st1 : ADState),
    backpropArgs st args ps = .ok st1 → st1.adjointVarMap = st.adjointVarMap := by
  intro args
  induction args with
  | nil =>
    intro ps st st1 h
    simp only [backpropArgs] at h
    injection h with h1
    rw [← h1]
  | cons a ra ih =>
    intro ps st st1 h
    match ps with
    | [] =>
      simp only [backpropArgs] at h
      injection h with h1
      rw [← h1]
    | p :: rp =>
      cases a with
      | var nid vid name shape ty df span =>
        cases hax : applyUpdate st (.var nid vid name shape ty df span) p with
        | error e2 => simp only [backpropArgs, hax] at h; exact absurd h (by simp)
        | ok stm =>
          simp only [backpropArgs, hax] at h
          rw [ih rp stm st1 h, applyUpdate_avm _ _ _ _ hax]
      | tuple n fs => simp only [backpropArgs] at h; exact absurd h (by simp)
      | tupleGetItem n t i => simp only [backpropArgs] at h; exact absurd h (by simp)
      | call n op cargs dattr => simp only [backpropArgs] at h; exact absurd h (by simp)
      | shapeExpr n dims => simp only [backpropArgs] at h; exact absurd h (by simp)
      | runtimeDepShape n => simp only [backpropArgs] at h; exact absurd h (by simp)

theorem backprop_avm (reg : GradReg) (st : ADState) (a ae value : Expr) (st1 : ADState)
    (h : backprop reg st a ae value = .ok st1) :
    st1.adjointVarMap = st.adjointVarMap := by
  cases value with
  | tuple n fields => exact applyUpdate_avm st _ ae st1 h
  | tupleGetItem n t i => exact applyUpdate_avm st _ ae st1 h
  | var n v s sh ty df sp => exact applyUpdate_avm st _ ae st1 h
  | call n op args dattr =>
    simp only [backprop] at h
    split at h
    · exact absurd h (by simp)
    · split at h
      · have h2 := backpropArgs_avm args _ _ st1 h
        exact h2
      · exact absurd h (by simp)
  | shapeExpr n dims => exact absurd h (by simp [backprop])
  | runtimeDepShape n => exact absurd h (by simp [backprop])

/-- `CreateAdjointVar` only ever inserts a fresh entry for `v` itself, an
adjoint variable whose dataflow kind is the `is_dataflow_var` argument. -/
theorem createAdjointVar_lookup (st : ADState) (v : Expr) (b : Bool) (k : Nat) (w : Expr)
    (h : lookupM (createAdjointVar st v b).adjointVarMap k = some w) :
    lookupM st.adjointVarMap k = some w ∨ (k = v.nid ∧ w.isDF = b) := by
  unfold createAdjointVar at h
  split at h
  · exact Or.inl h
  · split at h
    · rename_i name shape ty _
      simp only [lookupM] at h
      split at h
      · injection h with h1
        subst h1
        rename_i hk
        exact Or.inr ⟨hk.symm, rfl⟩
      · exact Or.inl h
    · exact Or.inl h

theorem reverseVisit_avm_lookup (reg : GradReg) (target : Expr) (st : ADState)
    (v value : Expr) (st1 : ADState)
    (h : reverseVisit reg target st v value = .ok st1) :
    ∀ k w, lookupM st1.adjointVarMap k = some w →
      lookupM st.adjointVarMap k = some w ∨ w.isDF = true := by
  intro k w hw
  have core : lookupM (createAdjointVar st v true).adjointVarMap k = some w → _ :=
    fun hx => (createAdjointVar_lookup st v true k w hx).imp id And.right
  unfold reverseVisit at h
  split at h
  · cases h1 : lookupM (createAdjointVar st v true).adjointVarMap v.nid with
    | none => simp only [h1] at h; simp at h
    | some adjVar =>
      simp only [h1] at h
      cases h2 : lookupM (createAdjointVar st v true).adjointExprMap v.nid with
      | some ae =>
        simp only [h2] at h
        have h3 := backprop_avm reg _ adjVar ae value st1 h
        rw [bindAndEmit_avm] at h3
        exact core (h3 ▸ hw)
      | none =>
        simp only [h2] at h
        cases h3 : initGrad (createAdjointVar st v true) v with
        | error e => simp only [h3] at h; simp at h
        | ok st2 =>
          simp only [h3] at h
          cases h4 : lookupM st2.adjointExprMap v.nid with
          | none => simp only [h4] at h; simp at h
          | some ae =>
            simp only [h4] at h
            have h5 := backprop_avm reg _ adjVar ae value st1 h
            rw [bindAndEmit_avm, initGrad_avm _ _ _ h3] at h5
            exact core (h5 ▸ hw)
  · cases h1 : lookupM (createAdjointVar st v true).adjointVarMap v.nid with
    | none => simp only [h1] at h; simp at h
    | some adjVar =>
      simp only [h1] at h
      cases h2 : lookupM (createAdjointVar st v true).adjointExprMap v.nid with
      | some ae =>
        simp only [h2] at h
        have h3 := backprop_avm reg _ adjVar ae value st1 h
        rw [bindAndEmit_avm] at h3
        exact core (h3 ▸ hw)
      | none =>
        simp only [h2] at h
        injection h with h1
        exact core (h1 ▸ hw)

theorem reverseStep_avm_lookup (reg : GradReg) (target : Expr) (st : ADState)
    (b : Binding) (st1 : ADState) (h : reverseStep reg target st b = .ok st1) :
    ∀ k w, lookupM st1.adjointVarMap k = some w →
      lookupM st.adjointVarMap k = some w ∨ w.isDF = true := by
  cases b with
  | varBinding v value => exact reverseVisit_avm_lookup reg target st v value st1 h
  | matchShape d =>
    intro k w hw
    simp only [reverseStep] at h
    injection h with h1
    exact Or.inl (h1 ▸ hw)

theorem reverseWalk_avm_lookup (reg : GradReg) (target : Expr) :
    ∀ (bs : List Binding) (st st1 : ADState),
      reverseWalk reg target st bs = .ok st1 →
      ∀ k w, lookupM st1.adjointVarMap k = some w →
        lookupM st.adjointVarMap k = some w ∨ w.isDF = true := by
  intro bs
  induction bs with
  | nil =>
    intro st st1 h k w hw
    simp only [reverseWalk] at h
    injection h with h1
    exact Or.inl (h1 ▸ hw)
  | cons b rest ih =>
    intro st st1 h k w hw
    simp only [reverseWalk] at h
    cases hstep : reverseStep reg target st b with
    | error e => rw [hstep] at h; simp at h
    | ok stm =>
      rw [hstep] at h
      rcases ih stm st1 h k w hw with h1 | h1
      · exact reverseStep_avm_lookup reg target st b stm hstep k w h1
      · exact Or.inr h1

/-- Adjoint-variable creation before the walk: entries are parameter adjoints
whose kind is output exactly for requires-gradient parameters. -/
theorem setupParamAdjoints_lookup (G : List Expr) :
    ∀ (pairs : List (Expr × Expr)) (st : ADState) (k : Nat) (w : Expr),
      lookupM (setupParamAdjoints st G pairs).adjointVarMap k = some w →
      lookupM st.adjointVarMap k = some w ∨
        ∃ np op, (np, op) ∈ pairs ∧ k = np.nid ∧ w.isDF = !(selectedParam G op) := by
  intro pairs
  induction pairs with
  | nil =>
    intro st k w h
    exact Or.inl h
  | cons pr rest ih =>
    intro st k w h
    obtain ⟨np, op⟩ := pr
    simp only [setupParamAdjoints] at h
    rcases ih _ k w h with h1 | ⟨np1, op1, hm, hk, hdf⟩
    · rcases createAdjointVar_lookup st np (!(selectedParam G op)) k w h1 with h2 | ⟨hk, hdf⟩
      · exact Or.inl h2
      · exact Or.inr ⟨np, op, by simp, hk, hdf⟩
    · exact Or.inr ⟨np1, op1, by simp [hm], hk, hdf⟩

/-- C4 (amended): after the reverse walk, every adjoint variable is either an
intermediate (dataflow) variable — every adjoint created during the walk is,
regardless of the original variable's own intermediate/output kind — or is the
adjoint of an input parameter created before the walk, whose kind is output
exactly when the parameter is requires-gradient (or `G` is empty) and
intermediate otherwise. -/
theorem C4_adjointVar_kinds (reg : GradReg) (target : Expr) (st0 : ADState)
    (G : List Expr) (pairs : List (Expr × Expr)) (bs : List Binding) (stf : ADState)
    (hwalk : reverseWalk reg target (setupParamAdjoints st0 G pairs) bs = .ok stf)
    (hempty : st0.adjointVarMap = []) :
    ∀ k w, lookupM stf.adjointVarMap k = some w →
      w.isDF = true ∨
        ∃ np op, (np, op) ∈ pairs ∧ k = np.nid ∧ w.isDF = !(selectedParam G op) := by
  intro k w hw
  rcases reverseWalk_avm_lookup reg target bs _ stf hwalk k w hw with h1 | h1
  · rcases setupParamAdjoints_lookup G pairs st0 k w h1 with h2 | h2
    · rw [hempty] at h2
      simp [lookupM] at h2
    · exact Or.inr h2
  · exact Or.inl h1

/-- C4 witness: with one requires-gradient parameter set up and an empty walk,
the parameter's adjoint variable is an output variable (as the amended claim
states for requires-gradient inputs). -/
theorem C4_witness :
    (Expr.var 30 30 "x_adjoint" (some (.shapeExpr 2 [])) sTy false 0).isDF = true ∨
      ∃ np op, (np, op) ∈ [(xParamA, xParamA)] ∧ (1 : Nat) = np.nid ∧
        (Expr.var 30 30 "x_adjoint" (some (.shapeExpr 2 [])) sTy false 0).isDF =
          !(selectedParam [] op) :=
  C4_adjointVar_kinds testReg tgtW { fresh := 30 } [] [(xParamA, xParamA)] [] _ rfl rfl 1
    (Expr.var 30 30 "x_adjoint" (some (.shapeExpr 2 [])) sTy false 0) rfl

/-- C4 counterexample: in the run of the pass on program A, the target `lv` is
an output (non-dataflow) variable, yet its adjoint variable `lv_adjoint` is
created as a dataflow (intermediate) variable — the adjoint's kind does not
mirror the original's. -/
theorem C4_cex :
    lvVarA.isDF = false ∧
    (funcTransform testReg fA [yParamA, xParamA]).map
        (fun r => (lookupM r.finalState.adjointVarMap lvVarA.nid).map Expr.isDF) =
      .ok (some true) :=
  ⟨rfl, rfl⟩

/-! ### Success inversion for the whole transformation -/

/-- Dissection of a successful `FuncTransform` run into its pipeline stages. -/
theorem funcTransformAux_ok (reg : GradReg) (f : RFunction) (G : List Expr)
    (fresh0 : Nat) (res : FTResult)
    (h : funcTransformAux reg f G fresh0 = .ok res) :
    ∃ seq bs st2 outAdj st3,
      f.body = some seq ∧
      seq.blocks.map (substBlock (cloneParams f.params fresh0).2.1) =
        [Block.dataflow bs] ∧
      reverseWalk reg (substVars (cloneParams f.params fresh0).2.1 seq.body)
          (setupParamAdjoints
            { fresh := (cloneParams f.params fresh0).2.2, emitted := forwardEmit bs }
            G ((cloneParams f.params fresh0).1.zip f.params)) bs.reverse = .ok st2 ∧
      emitInputAdjoints st2 G ((cloneParams f.params fresh0).1.zip f.params) =
        .ok (outAdj, st3) ∧
      res.params = (cloneParams f.params fresh0).1 ∧
      res.outAdjoints = outAdj ∧
      res.retExpr = .tuple (st3.fresh + 1)
        [substVars (cloneParams f.params fresh0).2.1 seq.body, .tuple st3.fresh outAdj] ∧
      res.finalState = { st3 with fresh := st3.fresh + 2 } := by
  unfold funcTransformAux at h
  cases hb : f.body with
  | none => rw [hb] at h; exact absurd h (by simp)
  | some seq =>
    rw [hb] at h
    rcases hcp : cloneParams f.params fresh0 with ⟨newParams, remap, fresh1⟩
    simp only [hcp] at h
    cases hbm : seq.blocks.map (substBlock remap) with
    | nil => simp only [hbm] at h; exact absurd h (by simp)
    | cons b1 rest =>
      cases rest with
      | cons b2 r2 => simp only [hbm] at h; exact absurd h (by simp)
      | nil =>
        cases b1 with
        | plain bs2 => simp only [hbm] at h; exact absurd h (by simp)
        | dataflow bs =>
          simp only [hbm] at h
          cases hiv : (substVars remap seq.body).isVarE with
          | false => simp only [hiv] at h; exact absurd h (by simp)
          | true =>
            simp only [hiv, if_true] at h
            cases hct : checkTarget (substVars remap seq.body) with
            | error e => simp only [hct] at h; exact absurd h (by simp)
            | ok u =>
              simp only [hct] at h
              cases hrw : reverseWalk reg (substVars remap seq.body)
                  (setupParamAdjoints { fresh := fresh1, emitted := forwardEmit bs }
                    G (newParams.zip f.params)) bs.reverse with
              | error e => simp only [hrw] at h; exact absurd h (by simp)
              | ok st2 =>
                simp only [hrw] at h
                cases hei : emitInputAdjoints st2 G (newParams.zip f.params) with
                | error e => simp only [hei] at h; exact absurd h (by simp)
                | ok pr =>
                  obtain ⟨outAdj, st3⟩ := pr
                  simp only [hei] at h
                  injection h with h1
                  subst h1
                  refine ⟨seq, bs, st2, outAdj, st3, rfl, ?_, ?_, ?_, ?_, ?_, ?_, ?_⟩ <;>
                    simp [hcp, hbm, hrw, hei]

/-! ### The cloned parameter list -/

theorem cloneParams_length : ∀ (params : List Expr) (fresh : Nat),
    (cloneParams params fresh).1.length = params.length := by
  intro params
  induction params with
  | nil => intro fresh; rfl
  | cons q rest ih =>
    intro fresh
    cases q <;> simp [cloneParams, ih]

theorem cloneParams_get : ∀ (params : List Expr) (fresh i : Nat) (p : Expr),
    (∀ q ∈ params, q.isVarE = true) → params[i]? = some p →
    (cloneParams params fresh).1[i]? =
      some (.var (fresh + i) p.vidOf p.nameOf p.shapeAnn p.tyD p.isDF p.spanOf) := by
  intro params
  induction params with
  | nil => intro fresh i p _ hp; simp at hp
  | cons q rest ih =>
    intro fresh i p hall hp
    have hq : q.isVarE = true := hall q (by simp)
    cases q with
    | var n vid name shape ty df span =>
      cases i with
      | zero =>
        simp at hp
        subst hp
        simp [cloneParams, Expr.vidOf, Expr.nameOf, Expr.shapeAnn, Expr.tyD, Expr.isDF,
          Expr.spanOf]
      | succ j =>
        simp at hp
        have := ih (fresh + 1) j p (fun q hqm => hall q (by simp [hqm])) hp
        simp only [cloneParams]
        simp only [List.getElem?_cons_succ]
        rw [this]
        have harith : fresh + 1 + j = fresh + (j + 1) := by omega
        rw [harith]
    | tuple n fs => simp [Expr.isVarE] at hq
    | tupleGetItem n t idx => simp [Expr.isVarE] at hq
    | call n op args dattr => simp [Expr.isVarE] at hq
    | shapeExpr n dims => simp [Expr.isVarE] at hq
    | runtimeDepShape n => simp [Expr.isVarE] at hq

/-! ### Node-identity bounds -/

theorem exprMaxNid_ge (e : Expr) : e.nid ≤ exprMaxNid e := by
  cases e with
  | var n vid name shape ty df span =>
    cases shape <;> simp [Expr.nid, exprMaxNid]
  | tuple n fs => simp [Expr.nid, exprMaxNid]
  | tupleGetItem n t i => simp [Expr.nid, exprMaxNid]
  | call n op args dattr => simp [Expr.nid, exprMaxNid]
  | shapeExpr n dims => simp [Expr.nid, exprMaxNid]
  | runtimeDepShape n => simp [Expr.nid, exprMaxNid]

theorem exprMaxNidList_ge : ∀ (l : List Expr) (e : Expr), e ∈ l →
    exprMaxNid e ≤ exprMaxNidList l := by
  intro l
  induction l with
  | nil => intro e he; simp at he
  | cons a rest ih =>
    intro e he
    rcases List.mem_cons.mp he with h1 | h1
    · subst h1; simp [exprMaxNidList]
    · calc exprMaxNid e ≤ exprMaxNidList rest := ih e h1
        _ ≤ exprMaxNidList (a :: rest) := by simp [exprMaxNidList]

theorem param_nid_le_funcMaxNid (f : RFunction) (p : Expr) (hp : p ∈ f.params) :
    p.nid ≤ funcMaxNid f :=
  le_trans (exprMaxNid_ge p)
    (le_trans (exprMaxNidList_ge f.params p hp) (le_max_left _ _))

/-- C9: every parameter of the output function is a fresh clone of the
corresponding parameter of `F` — same vid, display name, shape annotation,
checked type, kind and span — whose node identity (`funcMaxNid f + 1 + i`,
i.e. a freshly allocated object) differs from the original parameter's. -/
theorem C9_params_fresh_clones (reg : GradReg) (f : RFunction) (G : List Expr)
    (res : FTResult) (h : funcTransform reg f G = .ok res)
    (hall : ∀ q ∈ f.params, q.isVarE = true) :
    res.params.length = f.params.length ∧
    ∀ i p, f.params[i]? = some p →
      res.params[i]? =
        some (.var (funcMaxNid f + 1 + i) p.vidOf p.nameOf p.shapeAnn p.tyD p.isDF
          p.spanOf) ∧
      funcMaxNid f + 1 + i ≠ p.nid := by
  obtain ⟨seq, bs, st2, outAdj, st3, hb, hbm, hrw, hei, hparams, hout, hret, hfs⟩ :=
    funcTransformAux_ok reg f G (funcMaxNid f + 1) res h
  constructor
  · rw [hparams, cloneParams_length]
  · intro i p hp
    constructor
    · rw [hparams]
      exact cloneParams_get f.params (funcMaxNid f + 1) i p hall hp
    · have hmem : p ∈ f.params := by
        have := List.getElem?_eq_some_iff.mp hp
        obtain ⟨hlt, hval⟩ := this
        exact hval ▸ List.getElem_mem hlt
      have := param_nid_le_funcMaxNid f p hmem
      omega

/-- C9 witness: the first parameter of the transformed program A is a fresh
clone of `x` with identical vid, name, shape, type and span but a new node
identity. -/
theorem C9_witness :
    resA.params.length = fA.params.length ∧
    (resA.params[0]? =
        some (.var (funcMaxNid fA + 1 + 0) xParamA.vidOf xParamA.nameOf xParamA.shapeAnn
          xParamA.tyD xParamA.isDF xParamA.spanOf) ∧
      funcMaxNid fA + 1 + 0 ≠ xParamA.nid) :=
  ⟨(C9_params_fresh_clones testReg fA [yParamA, xParamA] resA rfl
      (by intro q hq; rcases List.mem_cons.mp hq with h | h
          · rw [h]; rfl
          · simp at h; rw [h]; rfl)).1,
   (C9_params_fresh_clones testReg fA [yParamA, xParamA] resA rfl
      (by intro q hq; rcases List.mem_cons.mp hq with h | h
          · rw [h]; rfl
          · simp at h; rw [h]; rfl)).2 0 xParamA rfl⟩

theorem shapeArgOf_avm (st : ADState) (v : Expr) :
    ((shapeArgOf st v).2).adjointVarMap = st.adjointVarMap := by
  unfold shapeArgOf
  cases v.shapeAnn <;> rfl

theorem shapeArgOf_aem (st : ADState) (v : Expr) :
    ((shapeArgOf st v).2).adjointExprMap = st.adjointExprMap := by
  unfold shapeArgOf
  cases v.shapeAnn <;> rfl

/-- The input-adjoint finalization leaves `adjoint_var_map` untouched, and
collects exactly the adjoint variables of the requires-gradient new parameters
in parameter order. -/
theorem emitInputAdjoints_frames (G : List Expr) : ∀ (pairs : List (Expr × Expr))
    (st : ADState) (out : List Expr) (st1 : ADState),
    emitInputAdjoints st G pairs = .ok (out, st1) →
    st1.adjointVarMap = st.adjointVarMap ∧
    out.map some = (pairs.filter (fun pr => selectedParam G pr.2)).map
      (fun pr => lookupM st.adjointVarMap pr.1.nid) := by
  intro pairs
  induction pairs with
  | nil =>
    intro st out st1 h
    simp only [emitInputAdjoints, Except.ok.injEq, Prod.mk.injEq] at h
    obtain ⟨h1, h2⟩ := h
    subst h1; subst h2
    simp
  | cons pr rest ih =>
    intro st out st1 h
    obtain ⟨np, op⟩ := pr
    cases hsel : selectedParam G op with
    | false =>
      simp only [emitInputAdjoints, hsel, Bool.false_eq_true, if_false] at h
      obtain ⟨h1, h2⟩ := ih st out st1 h
      refine ⟨h1, ?_⟩
      rw [h2]
      simp [hsel]
    | true =>
      simp only [emitInputAdjoints, hsel, if_true] at h
      cases hav : lookupM st.adjointVarMap np.nid with
      | none => simp only [hav] at h; exact absurd h (by simp)
      | some adjVar =>
        simp only [hav] at h
        cases hae : lookupM st.adjointExprMap np.nid with
        | some ae =>
          simp only [hae] at h
          cases hrec : emitInputAdjoints (bindAndEmit st adjVar ae) G rest with
          | error e => simp only [hrec] at h; exact absurd h (by simp)
          | ok pr2 =>
            obtain ⟨out2, st2⟩ := pr2
            simp only [hrec, Except.ok.injEq, Prod.mk.injEq] at h
            obtain ⟨h1, h2⟩ := h
            obtain ⟨ha, hb⟩ := ih _ out2 st2 hrec
            subst h1; subst h2
            rw [bindAndEmit_avm] at ha hb
            refine ⟨ha, ?_⟩
            simp only [List.map_cons, hb]
            simp [hsel, hav]
        | none =>
          simp only [hae] at h
          rcases hsh : shapeArgOf st np with ⟨shp, stm⟩
          simp only [hsh] at h
          cases hty : np.tyD with
          | dynTensor nd dt =>
            simp only [hty] at h
            cases hrec : emitInputAdjoints
                (bindAndEmit { stm with fresh := stm.fresh + 1 } adjVar
                  (.call stm.fresh "relax.zeros" [shp] (some dt))) G rest with
            | error e => simp only [hrec] at h; exact absurd h (by simp)
            | ok pr2 =>
              obtain ⟨out2, st2⟩ := pr2
              simp only [hrec, Except.ok.injEq, Prod.mk.injEq] at h
              obtain ⟨h1, h2⟩ := h
              obtain ⟨ha, hb⟩ := ih _ out2 st2 hrec
              subst h1; subst h2
              have hstm : stm.adjointVarMap = st.adjointVarMap := by
                have := shapeArgOf_avm st np
                rw [hsh] at this
                exact this
              rw [bindAndEmit_avm] at ha hb
              have hfr :
                  ({ stm with fresh := stm.fresh + 1 } : ADState).adjointVarMap =
                    st.adjointVarMap := hstm
              rw [hfr] at ha hb
              refine ⟨ha, ?_⟩
              simp only [List.map_cons, hb]
              simp [hsel, hav]
          | tupleTy fs => simp only [hty] at h; exact absurd h (by simp)
          | shapeTy => simp only [hty] at h; exact absurd h (by simp)
          | objectTy => simp only [hty] at h; exact absurd h (by simp)

/-- C1 (amended): a successful transformation returns
`(original_return, (adj_1, ..., adj_k))` — the (parameter-remapped) original
terminator paired with a tuple of input adjoints — where the adjoints are the
adjoint variables of the requires-gradient inputs *in parameter order*
(restricted to membership in `G`; all parameters when `G` is empty), not in the
order in which `G` lists them. -/
theorem C1_return_shape (reg : GradReg) (f : RFunction) (G : List Expr)
    (res : FTResult) (h : funcTransform reg f G = .ok res) :
    ∃ seq n1 n2, f.body = some seq ∧
      res.retExpr = .tuple n2 [newBodyOf f seq, .tuple n1 res.outAdjoints] ∧
      res.outAdjoints.map some =
        ((res.params.zip f.params).filter (fun pr => selectedParam G pr.2)).map
          (fun pr => lookupM res.finalState.adjointVarMap pr.1.nid) := by
  obtain ⟨seq, bs, st2, outAdj, st3, hb, hbm, hrw, hei, hparams, hout, hret, hfs⟩ :=
    funcTransformAux_ok reg f G (funcMaxNid f + 1) res h
  obtain ⟨ha, hchar⟩ := emitInputAdjoints_frames G _ st2 outAdj st3 hei
  refine ⟨seq, st3.fresh, st3.fresh + 1, hb, ?_, ?_⟩
  · rw [hret, hout]
    rfl
  · rw [hout, hparams, hfs]
    have : ({ st3 with fresh := st3.fresh + 2 } : ADState).adjointVarMap =
        st2.adjointVarMap := ha
    rw [this]
    exact hchar

/-- C1 witness: the amended return-value shape at the concrete run of program A
with `G = [y, x]`. -/
theorem C1_witness :
    ∃ seq n1 n2, fA.body = some seq ∧
      resA.retExpr = .tuple n2 [newBodyOf fA seq, .tuple n1 resA.outAdjoints] ∧
      resA.outAdjoints.map some =
        ((resA.params.zip fA.params).filter
            (fun pr => selectedParam [yParamA, xParamA] pr.2)).map
          (fun pr => lookupM resA.finalState.adjointVarMap pr.1.nid) :=
  C1_return_shape testReg fA [yParamA, xParamA] resA rfl

/-- C1 counterexample: with `G = [y, x]`, the first element of the adjoint
tuple is `x_adjoint` — the adjoint of the first *parameter* — while the
adjoint of the first element of `G` (which is `y`) is the distinct variable
`y_adjoint`; the adjoints are in parameter order, not in the order of `G`. -/
theorem C1_cex :
    (funcTransform testReg fA [yParamA, xParamA]).map
        (fun r => r.outAdjoints.map Expr.nameOf) = .ok ["x_adjoint", "y_adjoint"] ∧
    (funcTransform testReg fA [yParamA, xParamA]).map
        (fun r => (lookupM r.finalState.adjointVarMap 8).map Expr.nameOf) =
      .ok (some "y_adjoint") ∧
    [yParamA, xParamA][0]? = some yParamA ∧ yParamA.nameOf = "y" ∧
    "x_adjoint" ≠ "y_adjoint" :=
  ⟨rfl, rfl, rfl, rfl, by decide⟩

/-! ### Fail-fast behavior -/

theorem checkTarget_err (v : Expr) (h : isScalarTensorVar v = false) :
    ∃ e, checkTarget v = .error e := by
  unfold checkTarget
  unfold isScalarTensorVar at h
  cases hdf : v.isDF with
  | true =>
    refine ⟨.targetIsDataflow, ?_⟩
    simp [hdf]
  | false =>
    simp only [hdf, Bool.false_eq_true, if_false]
    cases hty : v.tyD with
    | dynTensor nd dt =>
      rw [hty] at h
      cases hsh : v.shapeAnn with
      | none => simp [hsh]
      | some shp =>
        rw [hsh] at h
        cases shp with
        | shapeExpr n dims =>
          simp only at h
          refine ⟨.targetNotScalar, ?_⟩
          simp only [hsh]
          have : dims.length ≠ 0 := by
            cases dims with
            | nil => simp at h
            | cons d r => simp
          simp [this]
        | var n vid nm sh ty df sp => simp [hsh]
        | tuple n fs => simp [hsh]
        | tupleGetItem n t i => simp [hsh]
        | call n op args dattr => simp [hsh]
        | runtimeDepShape n => simp [hsh]
    | tupleTy fs => simp [hty]
    | shapeTy => simp [hty]
    | objectTy => simp [hty]

theorem funcTransformAux_err (reg : GradReg) (f : RFunction) (G : List Expr)
    (fresh0 : Nat) (seq : SeqE) (hb : f.body = some seq)
    (hc : 1 < seq.blocks.length ∨
      (substVars (cloneParams f.params fresh0).2.1 seq.body).isVarE = false ∨
      isScalarTensorVar (substVars (cloneParams f.params fresh0).2.1 seq.body) = false) :
    isError (funcTransformAux reg f G fresh0) = true := by
  unfold funcTransformAux
  rw [hb]
  rcases hcp : cloneParams f.params fresh0 with ⟨newParams, remap, fresh1⟩
  simp only [hcp] at hc ⊢
  cases hbm : seq.blocks.map (substBlock remap) with
  | nil => rfl
  | cons b1 rest =>
    cases rest with
    | cons b2 r2 => cases b1 <;> rfl
    | nil =>
      cases b1 with
      | plain bs2 => rfl
      | dataflow bs =>
        have hlen : seq.blocks.length = 1 := by
          have := congrArg List.length hbm
          simpa using this
        rcases hc with hc1 | hc2 | hc3
        · omega
        · simp [hc2, isError]
        · cases hiv : (substVars remap seq.body).isVarE with
          | false => simp [hiv, isError]
          | true =>
            simp only [hiv, if_true]
            obtain ⟨e, he⟩ := checkTarget_err _ hc3
            rw [he]
            rfl

/-- C8: the pass aborts with a fatal error (yielding no module) whenever the
named function is not found, a requires-gradient entry is not one of the
function's parameters, the body has more than one region, the region's
terminator is not a variable reference, or the target variable is not a scalar
(zero-dimensional) tensor. -/
theorem C8_fail_fast (reg : GradReg) (m : ADModule) (fname : String) (G : List Expr)
    (h : lookupFn m fname = none ∨
      ∃ f, lookupFn m fname = some f ∧
        (¬ G.all (fun g => f.params.any (fun p => p.nid == g.nid)) = true ∨
         ∃ seq, f.body = some seq ∧
           (1 < seq.blocks.length ∨ (newBodyOf f seq).isVarE = false ∨
            isScalarTensorVar (newBodyOf f seq) = false))) :
    isError (simpleAD reg m fname G) = true := by
  unfold simpleAD
  rcases h with h1 | ⟨f, hf, hrest⟩
  · rw [h1]
    rfl
  · rw [hf]
    cases hG : G.all (fun g => f.params.any (fun p => p.nid == g.nid)) with
    | false => simp [hG, isError]
    | true =>
      simp only [hG, if_true]
      rcases hrest with hbad | ⟨seq, hb, hc⟩
      · exact absurd hG hbad
      · have herr := funcTransformAux_err reg f G (funcMaxNid f + 1) seq hb hc
        have herr2 : isError (funcTransform reg f G) = true := herr
        cases hft : funcTransform reg f G with
        | error e => simp only [hft]; rfl
        | ok res => rw [hft] at herr2; simp [isError] at herr2

/-- C8 witness: the pass on an empty module aborts (function not found). -/
theorem C8_witness : isError (simpleAD testReg [] "main" []) = true :=
  C8_fail_fast testReg [] "main" [] (Or.inl rfl)

/-! ### Default-zero adjoints for unreachable requires-gradient inputs -/

theorem lookupM_mem : ∀ (m : VMap) (k : Nat) (v : Expr),
    lookupM m k = some v → (k, v) ∈ m := by
  intro m
  induction m with
  | nil => intro k v h; simp [lookupM] at h
  | cons kv rest ih =>
    intro k v h
    obtain ⟨k1, v1⟩ := kv
    simp only [lookupM] at h
    split at h
    · injection h with h1
      subst h1
      rename_i hk
      simp [hk]
    · exact List.mem_cons_of_mem _ (ih k v h)

theorem lookupM_none_of_lt (m : VMap) (n : Nat) (h : ∀ kv ∈ m, kv.1 < n) :
    lookupM m n = none := by
  induction m with
  | nil => rfl
  | cons kv rest ih =>
    obtain ⟨k1, v1⟩ := kv
    have hk : k1 < n := h (k1, v1) (by simp)
    simp only [lookupM]
    have : ¬ k1 = n := by omega
    simp only [this, if_false]
    exact ih (fun kv hkv => h kv (List.mem_cons_of_mem _ hkv))

theorem shapeArgOf_intern (st : ADState) (v : Expr) :
    ((shapeArgOf st v).2).adjointBinding = st.adjointBinding := by
  unfold shapeArgOf
  cases v.shapeAnn <;> rfl

theorem shapeArgOf_emitted (st : ADState) (v : Expr) :
    ((shapeArgOf st v).2).emitted = st.emitted := by
  unfold shapeArgOf
  cases v.shapeAnn <;> rfl

theorem shapeArgOf_fresh_ge (st : ADState) (v : Expr) :
    st.fresh ≤ ((shapeArgOf st v).2).fresh := by
  unfold shapeArgOf
  cases v.shapeAnn <;> simp

theorem bindAndEmit_intern_keys (st : ADState) (v e : Expr) (kv : Nat × Expr)
    (h : kv ∈ (bindAndEmit st v e).adjointBinding) :
    kv ∈ st.adjointBinding ∨ kv = (e.nid, v) := by
  unfold bindAndEmit at h
  split at h
  · exact Or.inl h
  · rcases List.mem_cons.mp h with h1 | h1
    · exact Or.inr h1
    · exact Or.inl h1

theorem emitInputAdjoints_emitted (G : List Expr) : ∀ (pairs : List (Expr × Expr))
    (st : ADState) (out : List Expr) (stf : ADState),
    emitInputAdjoints st G pairs = .ok (out, stf) →
    ∃ tl, stf.emitted = st.emitted ++ tl := by
  intro pairs
  induction pairs with
  | nil =>
    intro st out stf h
    simp only [emitInputAdjoints, Except.ok.injEq, Prod.mk.injEq] at h
    obtain ⟨h1, h2⟩ := h
    subst h2
    exact ⟨[], by simp⟩
  | cons pr rest ih =>
    intro st out stf h
    obtain ⟨np, op⟩ := pr
    cases hsel : selectedParam G op with
    | false =>
      simp only [emitInputAdjoints, hsel, Bool.false_eq_true, if_false] at h
      exact ih st out stf h
    | true =>
      simp only [emitInputAdjoints, hsel, if_true] at h
      cases hav : lookupM st.adjointVarMap np.nid with
      | none => simp only [hav] at h; exact absurd h (by simp)
      | some adjVar =>
        simp only [hav] at h
        cases hae : lookupM st.adjointExprMap np.nid with
        | some ae =>
          simp only [hae] at h
          cases hrec : emitInputAdjoints (bindAndEmit st adjVar ae) G rest with
          | error e => simp only [hrec] at h; exact absurd h (by simp)
          | ok pr2 =>
            obtain ⟨out2, st2⟩ := pr2
            simp only [hrec, Except.ok.injEq, Prod.mk.injEq] at h
            obtain ⟨h1, h2⟩ := h
            obtain ⟨tl, htl⟩ := ih _ out2 st2 hrec
            subst h2
            rw [bindAndEmit_emitted] at htl
            exact ⟨_, by rw [htl, List.append_assoc]⟩
        | none =>
          simp only [hae] at h
          rcases hsh : shapeArgOf st np with ⟨shp, stm⟩
          simp only [hsh] at h
          cases hty : np.tyD with
          | dynTensor nd dt =>
            simp only [hty] at h
            cases hrec : emitInputAdjoints
                (bindAndEmit { stm with fresh := stm.fresh + 1 } adjVar
                  (.call stm.fresh "relax.zeros" [shp] (some dt))) G rest with
            | error e => simp only [hrec] at h; exact absurd h (by simp)
            | ok pr2 =>
              obtain ⟨out2, st2⟩ := pr2
              simp only [hrec, Except.ok.injEq, Prod.mk.injEq] at h
              obtain ⟨h1, h2⟩ := h
              obtain ⟨tl, htl⟩ := ih _ out2 st2 hrec
              subst h2
              rw [bindAndEmit_emitted] at htl
              have hse : ({ stm with fresh := stm.fresh + 1 } : ADState).emitted =
                  st.emitted := by
                have := shapeArgOf_emitted st np
                rw [hsh] at this
                exact this
              rw [hse] at htl
              exact ⟨_, by rw [htl, List.append_assoc]⟩
          | tupleTy fs => simp only [hty] at h; exact absurd h (by simp)
          | shapeTy => simp only [hty] at h; exact absurd h (by simp)
          | objectTy => simp only [hty] at h; exact absurd h (by simp)

/-- C5 (amended): during input-adjoint finalization, every requires-gradient
input whose adjoint expression was never created receives a default adjoint
binding `zeros(shape, dtype)` — a single freshly created `zeros` call on the
input's shape — emitted through `bind_and_emit`; this only happens for
tensor-typed inputs (a tuple-typed input fails the `DynTensorType` downcast
fatally instead of receiving a leaf-by-leaf structural zero).  The two
well-formedness hypotheses (every intern key and every accumulated adjoint
identity is below the fresh counter) hold of every state the pass constructs,
since tables only ever receive identities of already-allocated nodes. -/
theorem C5_default_zero (G : List Expr) : ∀ (pairs : List (Expr × Expr)) (st : ADState)
    (out : List Expr) (stf : ADState),
    emitInputAdjoints st G pairs = .ok (out, stf) →
    internBelow st → exprMapBelow st →
    ∀ np op ndim dt shp, (np, op) ∈ pairs → selectedParam G op = true →
      lookupM st.adjointExprMap np.nid = none →
      np.tyD = .dynTensor ndim dt → np.shapeAnn = some shp →
      ∃ znid adjVar, lookupM st.adjointVarMap np.nid = some adjVar ∧
        mkEmit adjVar (.call znid "relax.zeros" [shp] (some dt)) ∈ stf.emitted := by
  intro pairs
  induction pairs with
  | nil =>
    intro st out stf h hi he np op ndim dt shp hm
    simp at hm
  | cons pr rest ih =>
    intro st out stf h hi he np op ndim dt shp hm hsel hnone hty hsh
    obtain ⟨np0, op0⟩ := pr
    rcases List.mem_cons.mp hm with heq | hmem
    · injection heq with h1 h2
      subst h1; subst h2
      simp only [emitInputAdjoints, hsel, if_true] at h
      cases hav : lookupM st.adjointVarMap np.nid with
      | none => simp only [hav] at h; exact absurd h (by simp)
      | some adjVar =>
        simp only [hav, hnone] at h
        have hsa : shapeArgOf st np = (shp, st) := by
          unfold shapeArgOf
          rw [hsh]
        simp only [hsa, hty] at h
        cases hrec : emitInputAdjoints
            (bindAndEmit { st with fresh := st.fresh + 1 } adjVar
              (.call st.fresh "relax.zeros" [shp] (some dt))) G rest with
        | error e => simp only [hrec] at h; exact absurd h (by simp)
        | ok pr2 =>
          obtain ⟨out2, st2⟩ := pr2
          simp only [hrec, Except.ok.injEq, Prod.mk.injEq] at h
          obtain ⟨h1, h2⟩ := h
          subst h2
          obtain ⟨tl, htl⟩ := emitInputAdjoints_emitted G rest _ out2 st2 hrec
          rw [bindAndEmit_emitted] at htl
          refine ⟨st.fresh, adjVar, rfl, ?_⟩
          have hnoneI : lookupM st.adjointBinding st.fresh = none :=
            lookupM_none_of_lt _ _ hi
          rw [htl]
          simp [Expr.nid, hnoneI]
    · cases hsel0 : selectedParam G op0 with
      | false =>
        simp only [emitInputAdjoints, hsel0, Bool.false_eq_true, if_false] at h
        exact ih st out stf h hi he np op ndim dt shp hmem hsel hnone hty hsh
      | true =>
        simp only [emitInputAdjoints, hsel0, if_true] at h
        cases hav0 : lookupM st.adjointVarMap np0.nid with
        | none => simp only [hav0] at h; exact absurd h (by simp)
        | some adjVar0 =>
          simp only [hav0] at h
          cases hae0 : lookupM st.adjointExprMap np0.nid with
          | some ae0 =>
            simp only [hae0] at h
            cases hrec : emitInputAdjoints (bindAndEmit st adjVar0 ae0) G rest with
            | error e => simp only [hrec] at h; exact absurd h (by simp)
            | ok pr2 =>
              obtain ⟨out2, st2⟩ := pr2
              simp only [hrec, Except.ok.injEq, Prod.mk.injEq] at h
              obtain ⟨h1, h2⟩ := h
              subst h2
              have hiB2 : internBelow (bindAndEmit st adjVar0 ae0) := by
                intro kv hkv
                rw [bindAndEmit_fresh]
                rcases bindAndEmit_intern_keys st adjVar0 ae0 kv hkv with hk | hk
                · exact hi kv hk
                · rw [hk]
                  exact he (np0.nid, ae0) (lookupM_mem _ _ _ hae0)
              have heB2 : exprMapBelow (bindAndEmit st adjVar0 ae0) := by
                intro kv hkv
                rw [bindAndEmit_fresh]
                rw [bindAndEmit_aem] at hkv
                exact he kv hkv
              have hnone2 : lookupM (bindAndEmit st adjVar0 ae0).adjointExprMap np.nid =
                  none := by
                rw [bindAndEmit_aem]
                exact hnone
              have hres := ih _ out2 st2 hrec hiB2 heB2 np op ndim dt shp hmem hsel hnone2
                hty hsh
              simpa only [bindAndEmit_avm] using hres
          | none =>
            simp only [hae0] at h
            rcases hsh0 : shapeArgOf st np0 with ⟨shp0, stm⟩
            simp only [hsh0] at h
            cases hty0 : np0.tyD with
            | dynTensor nd0 dt0 =>
              simp only [hty0] at h
              cases hrec : emitInputAdjoints
                  (bindAndEmit { stm with fresh := stm.fresh + 1 } adjVar0
                    (.call stm.fresh "relax.zeros" [shp0] (some dt0))) G rest with
              | error e => simp only [hrec] at h; exact absurd h (by simp)
              | ok pr2 =>
                obtain ⟨out2, st2⟩ := pr2
                simp only [hrec, Except.ok.injEq, Prod.mk.injEq] at h
                obtain ⟨h1, h2⟩ := h
                subst h2
                have hstmI : stm.adjointBinding = st.adjointBinding := by
                  have := shapeArgOf_intern st np0
                  rw [hsh0] at this
                  exact this
                have hstmE : stm.adjointExprMap = st.adjointExprMap := by
                  have := shapeArgOf_aem st np0
                  rw [hsh0] at this
                  exact this
                have hstmA : stm.adjointVarMap = st.adjointVarMap := by
                  have := shapeArgOf_avm st np0
                  rw [hsh0] at this
                  exact this
                have hstmF : st.fresh ≤ stm.fresh := by
                  have := shapeArgOf_fresh_ge st np0
                  rw [hsh0] at this
                  exact this
                have hiB : internBelow
                    (bindAndEmit { stm with fresh := stm.fresh + 1 } adjVar0
                      (.call stm.fresh "relax.zeros" [shp0] (some dt0))) := by
                  intro kv hkv
                  rw [bindAndEmit_fresh]
                  rcases bindAndEmit_intern_keys _ _ _ kv hkv with hk | hk
                  · have hk2 : kv ∈ st.adjointBinding := by
                      have : ({ stm with fresh := stm.fresh + 1 } : ADState).adjointBinding
                          = st.adjointBinding := hstmI
                      rw [this] at hk
                      exact hk
                    have := hi kv hk2
                    simp only [ADState.fresh]
                    omega
                  · rw [hk]
                    simp [Expr.nid]
                have heB : exprMapBelow
                    (bindAndEmit { stm with fresh := stm.fresh + 1 } adjVar0
                      (.call stm.fresh "relax.zeros" [shp0] (some dt0))) := by
                  intro kv hkv
                  rw [bindAndEmit_fresh]
                  rw [bindAndEmit_aem] at hkv
                  have hk2 : kv ∈ st.adjointExprMap := by
                    have : ({ stm with fresh := stm.fresh + 1 } : ADState).adjointExprMap
                        = st.adjointExprMap := hstmE
                    rw [this] at hkv
                    exact hkv
                  have := he kv hk2
                  simp only [ADState.fresh]
                  omega
                have hnone2 : lookupM
                    (bindAndEmit { stm with fresh := stm.fresh + 1 } adjVar0
                      (.call stm.fresh "relax.zeros" [shp0] (some dt0))).adjointExprMap
                    np.nid = none := by
                  rw [bindAndEmit_aem]
                  have : ({ stm with fresh := stm.fresh + 1 } : ADState).adjointExprMap
                      = st.adjointExprMap := hstmE
                  rw [this]
                  exact hnone
                have hres := ih _ out2 st2 hrec hiB heB np op ndim dt shp hmem hsel
                  hnone2 hty hsh
                simp only [bindAndEmit_avm] at hres
                have : ({ stm with fresh := stm.fresh + 1 } : ADState).adjointVarMap
                    = st.adjointVarMap := hstmA
                rw [this] at hres
                exact hres
            | tupleTy fs => simp only [hty0] at h; exact absurd h (by simp)
            | shapeTy => simp only [hty0] at h; exact absurd h (by simp)
            | objectTy => simp only [hty0] at h; exact absurd h (by simp)

/-- C5 witness: a requires-gradient scalar-tensor input with no accumulated
adjoint receives the emitted default binding `x_adjoint := zeros(shape, f32)`. -/
theorem C5_witness :
    ∃ znid adjVar, lookupM stW5.adjointVarMap npW5.nid = some adjVar ∧
      mkEmit adjVar (.call znid "relax.zeros" [.shapeExpr 2 []] (some 0)) ∈
        (((emitInputAdjoints stW5 [] [(npW5, xParamA)]).toOption.getD
          ([], stW5)).2).emitted := by
  refine C5_default_zero [] [(npW5, xParamA)] stW5 [Expr.var 9 9 "x_adjoint"
    (some (.shapeExpr 2 [])) sTy false 0] _ rfl ?_ ?_ npW5 xParamA 0 0
    (.shapeExpr 2 []) (by simp) rfl rfl rfl rfl
  · intro kv hkv
    simp [stW5] at hkv
  · intro kv hkv
    simp [stW5] at hkv

/-- C5 counterexample: on program C, whose second input `w` is tuple-typed and
unreachable from the target, the pass aborts with the `DynTensorType` downcast
failure instead of emitting a leaf-by-leaf structural-zero adjoint. -/
theorem C5_cex :
    funcTransform testReg fC [] = .error .paramDowncastTensorType ∧
    wParamC.tyD = .tupleTy [sTy, sTy] :=
  ⟨rfl, rfl⟩

end RelaxAD
